import Mathlib

/-!
# Offline report queue and synchronization engine — formal model

A shallow embedding of `src/src/stores/offlineStore.ts` (punyaram/resqtech):
the zustand store holding the offline report queue, its durable localforage
backing store, and the drain procedure that reconciles the queue with the
remote Supabase gateway.

Modelling conventions:
* The localforage key-value database is an association list
  `Store := List (String × Report)`; `setItem`, `getItem` (`find?` on the
  key) and `removeItem` mirror the localforage API used by the source.
* `localforage.iterate` may throw a storage-layer error; a `StoreBehavior`
  bundles the entries with a flag saying whether the iteration throws, and
  the operations that call `iterate` are given an `Except`-valued variant
  that records whether an exception escapes to the caller.
* Timestamps (`Date.now()` / `created_at` ISO strings, compared through
  `new Date(s).getTime()`) are modelled as `Nat` epoch milliseconds; the
  `Math.random()` nonce of the id generator is an explicit parameter.
* JavaScript numbers carried opaquely in the payload (latitude, longitude)
  are modelled as `Int`; no claim computes with them.
* The Supabase gateway (storage upload + record insert) is an oracle
  `Gateway` of success predicates; `attemptSync` records in an
  `AttemptTrace` whether the insert step was reached, so that statements
  about "the insert is never attempted" are expressible.
* `setTimeout(... syncPendingReports ...)` scheduling is modelled by a
  returned `Bool` saying whether a drain attempt was scheduled.
-/

namespace ResqTech

/-- `OfflineReport` of `offlineStore.ts` lines 6–20.  `latitude`/`longitude`
are opaque numeric payload fields (modelled as `Int`), `media_files` is the
list of attached file names, `created_at` the creation timestamp in epoch
milliseconds, `synced` the sync flag. -/
structure Report where
  id : String
  latitude : Int
  longitude : Int
  description : String
  severity : String
  hazard_type : String
  location_description : String
  reporter_name : String
  reporter_contact : Option String
  urgency_level : String
  media_files : List String
  created_at : Nat
  synced : Bool
deriving Repr, DecidableEq

/-- The draft accepted by `addPendingReport`
(`Omit<OfflineReport, 'id' | 'created_at' | 'synced'>`, line 26). -/
structure ReportDraft where
  latitude : Int
  longitude : Int
  description : String
  severity : String
  hazard_type : String
  location_description : String
  reporter_name : String
  reporter_contact : Option String
  urgency_level : String
  media_files : List String
deriving Repr, DecidableEq

/-- The localforage database (`INCOIS_OfflineDB/reports`): a key-value map
from record id to report, as an association list. -/
abbrev Store := List (String × Report)

/-- Behaviour of the durable store under one `localforage.iterate` scan:
its entries, and whether the storage layer throws during the scan. -/
structure StoreBehavior where
  entries : Store
  iterateFails : Bool
deriving Repr, DecidableEq

/-- The mutable zustand state of `offlineStore.ts` lines 22–25 / 39–42
(the function-valued members are modelled as the top-level operations). -/
structure OfflineState where
  isOnline : Bool
  pendingReports : List Report
  syncInProgress : Bool
deriving Repr, DecidableEq

/-- `localforage.getItem` / key lookup: first entry with the given key. -/
def getItem (store : Store) (key : String) : Option Report :=
  (store.find? (fun kr => kr.1 = key)).map (fun kr => kr.2)

/-- `localforage.setItem key r` (lines 61, 147): overwrite the entry at
`key` if present, otherwise append a new entry. -/
def setItem (store : Store) (key : String) (r : Report) : Store :=
  if store.any (fun kr => kr.1 = key) then
    store.map (fun kr => if kr.1 = key then (key, r) else kr)
  else
    store ++ [(key, r)]

/-- `localforage.removeItem key` (line 175): delete the entry at `key`. -/
def removeItem (store : Store) (key : String) : Store :=
  store.filter (fun kr => kr.1 ≠ key)

/-- One step of the stable descending insertion modelling
`reports.sort((a, b) => new Date(b.created_at).getTime() - new Date(a.created_at).getTime())`
(lines 83–85): insert `r` before the first element it is at least as new
as (so an element earlier in the original order precedes ties). -/
def insertByCreatedAt (r : Report) : List Report → List Report
  | [] => [r]
  | x :: xs =>
    if x.created_at ≤ r.created_at then
      r :: x :: xs
    else
      x :: insertByCreatedAt r xs

/-- The newest-first sort of lines 83–85 (a stable descending sort by
`created_at`, as ECMAScript `Array.prototype.sort` is stable). -/
def sortNewestFirst : List Report → List Report
  | [] => []
  | r :: rs => insertByCreatedAt r (sortNewestFirst rs)

/-- The `localforage.iterate` call of lines 77–81: scan the store,
collecting every record whose `synced` flag is false; a storage-layer
error aborts the scan and surfaces as `Except.error`. -/
def iteratePending (sb : StoreBehavior) : Except String (List Report) :=
  if sb.iterateFails then
    Except.error "StorageError"
  else
    Except.ok ((sb.entries.map (fun kr => kr.2)).filter (fun r => !r.synced))

/-- `loadPendingReports` (lines 74–89) with its caller-visible outcome made
explicit: the `try` block scans the store and publishes the sorted pending
records with `set`; the `catch` block (lines 86–88) only logs, leaves the
state untouched, and does not rethrow — so every path resolves with
`Except.ok`. -/
def loadPendingReportsE (st : OfflineState) (sb : StoreBehavior) :
    Except String OfflineState :=
  match iteratePending sb with
  | Except.ok reports =>
      Except.ok { st with pendingReports := sortNewestFirst reports }
  | Except.error _ =>
      Except.ok st

/-- `loadPendingReports` as a state transformer (the value the zustand
state holds after the returned promise resolves). -/
def loadPendingReports (st : OfflineState) (sb : StoreBehavior) : OfflineState :=
  match loadPendingReportsE st sb with
  | Except.ok st' => st'
  | Except.error _ => st

/-- The record built by `addPendingReport` (lines 53–58): the draft fields
plus a generated id `offline_<Date.now()>_<nonce>`, the creation timestamp,
and `synced = false`. -/
def mkReport (draft : ReportDraft) (now : Nat) (nonce : String) : Report :=
  { id := "offline_" ++ toString now ++ "_" ++ nonce
    latitude := draft.latitude
    longitude := draft.longitude
    description := draft.description
    severity := draft.severity
    hazard_type := draft.hazard_type
    location_description := draft.location_description
    reporter_name := draft.reporter_name
    reporter_contact := draft.reporter_contact
    urgency_level := draft.urgency_level
    media_files := draft.media_files
    created_at := now
    synced := false }

/-- `addPendingReport` (lines 52–72): build the record, `setItem` it into
the durable store, append it to the in-memory projection, and — if
`isOnline` — schedule a drain attempt via `setTimeout` (the returned
`Bool`). -/
def addPendingReport (draft : ReportDraft) (now : Nat) (nonce : String)
    (st : OfflineState) (store : Store) : OfflineState × Store × Bool :=
  let r := mkReport draft now nonce
  let store' := setItem store r.id r
  let st' := { st with pendingReports := st.pendingReports ++ [r] }
  (st', store', st.isOnline)

/-- The Supabase gateway as an oracle: whether uploading a given file of a
given report succeeds (lines 110–114), the public URL returned for it
(lines 116–118), and whether the record insert succeeds (lines 125–143). -/
structure Gateway where
  uploadOk : Report → String → Bool
  uploadUrl : Report → String → String
  insertOk : Report → Bool

/-- The media upload loop of lines 106–122: upload each file in order,
collecting public URLs; the first failing upload throws (`if (error) throw
error`), so later files are not attempted. -/
def uploadMedia (gw : Gateway) (r : Report) : List String → Except String (List String)
  | [] => Except.ok []
  | f :: fs =>
    if gw.uploadOk r f then
      match uploadMedia gw r fs with
      | Except.ok urls => Except.ok (gw.uploadUrl r f :: urls)
      | Except.error e => Except.error e
    else
      Except.error f

/-- Observable outcome of one record's drain attempt (the body of the inner
`try` of lines 104–148): whether the gateway insert was reached, and
whether both steps succeeded (so the record is marked synced). -/
structure AttemptTrace where
  reportId : String
  insertAttempted : Bool
  succeeded : Bool
deriving Repr, DecidableEq

/-- One record's drain attempt (lines 104–148): upload all media first; a
failed upload throws before the insert is reached; otherwise attempt the
insert. -/
def attemptSync (gw : Gateway) (r : Report) : AttemptTrace :=
  match uploadMedia gw r r.media_files with
  | Except.error _ =>
      { reportId := r.id, insertAttempted := false, succeeded := false }
  | Except.ok _urls =>
      { reportId := r.id, insertAttempted := true, succeeded := gw.insertOk r }

/-- The `for (const report of pendingReports)` loop of lines 101–153:
records already marked synced are skipped with no gateway call (line 102);
otherwise the attempt runs and — on success of both steps — the record is
rewritten with `synced = true` (lines 146–147); a failed attempt is caught
by the per-record `catch` (lines 149–152) and the loop continues.  Returns
the final store and the trace of gateway attempts made. -/
def drainLoop (gw : Gateway) : List Report → Store → Store × List AttemptTrace
  | [], store => (store, [])
  | r :: rs, store =>
    if r.synced then
      drainLoop gw rs store
    else
      let t := attemptSync gw r
      let store' :=
        if t.succeeded then setItem store r.id { r with synced := true } else store
      let rest := drainLoop gw rs store'
      (rest.1, t :: rest.2)

/-- `syncPendingReports` (lines 91–163).  The guard of lines 92–96 returns
immediately when offline, when a drain is already in progress, or when the
projection is empty.  Otherwise `syncInProgress` is set, the drain loop runs
over the projection, the projection is reloaded from the store (line 156;
`reloadFails` injects a storage fault into that reload, which
`loadPendingReports` catches internally), and the `finally` of lines
160–162 clears `syncInProgress` on every exit path.  Every exception is
caught (per-record catch, load's own catch, outer catch of lines 158–159),
so the model is a total function: no exception propagates to the caller. -/
def syncPendingReports (gw : Gateway) (reloadFails : Bool)
    (st : OfflineState) (store : Store) :
    OfflineState × Store × List AttemptTrace :=
  if st.isOnline = false ∨ st.syncInProgress = true ∨ st.pendingReports.isEmpty then
    (st, store, [])
  else
    let st1 := { st with syncInProgress := true }
    let res := drainLoop gw st.pendingReports store
    let st2 := loadPendingReports st1 { entries := res.1, iterateFails := reloadFails }
    ({ st2 with syncInProgress := false }, res.1, res.2)

/-- The `localforage.iterate` call of lines 167–172: collect the key of
every record whose `synced` flag is true; a storage-layer error aborts the
scan and surfaces as `Except.error`. -/
def iterateSyncedKeys (sb : StoreBehavior) : Except String (List String) :=
  if sb.iterateFails then
    Except.error "StorageError"
  else
    Except.ok ((sb.entries.filter (fun kr => kr.2.synced)).map (fun kr => kr.1))

/-- `clearSyncedReports` (lines 165–182) with its caller-visible outcome
made explicit: the `try` block collects the synced keys, removes them, and
reloads the projection; the `catch` (lines 179–181) only logs and does not
rethrow, so every path resolves with `Except.ok`. -/
def clearSyncedReportsE (st : OfflineState) (sb : StoreBehavior) :
    Except String (OfflineState × Store) :=
  let body : Except String (OfflineState × Store) :=
    match iterateSyncedKeys sb with
    | Except.error e => Except.error e
    | Except.ok keys =>
        let store' := keys.foldl removeItem sb.entries
        Except.ok
          (loadPendingReports st { entries := store', iterateFails := false }, store')
  match body with
  | Except.ok res => Except.ok res
  | Except.error _ => Except.ok (st, sb.entries)

/-- `clearSyncedReports` as a state-and-store transformer. -/
def clearSyncedReports (st : OfflineState) (sb : StoreBehavior) :
    OfflineState × Store :=
  match clearSyncedReportsE st sb with
  | Except.ok res => res
  | Except.error _ => (st, sb.entries)

/-- `setOnlineStatus` (lines 44–50): record the reported status; when the
status is `true` a drain attempt is scheduled via `setTimeout` (the
returned `Bool`), unconditionally on the previous state. -/
def setOnlineStatus (status : Bool) (st : OfflineState) : OfflineState × Bool :=
  ({ st with isOnline := status }, status)

/-! ## Concrete sample data (used to instantiate the theorems) -/

/-- A representative validated draft, as produced by the report form. -/
def sampleDraft : ReportDraft :=
  { latitude := 12
    longitude := 80
    description := "high waves at the breakwater"
    severity := "high"
    hazard_type := "High Waves"
    location_description := "north beach"
    reporter_name := "asha"
    reporter_contact := none
    urgency_level := "high"
    media_files := [] }

/-- A pending report created at time 1, no attachments. -/
def sampleReport1 : Report := mkReport sampleDraft 1 "aaa"

/-- A pending report created at time 2, no attachments. -/
def sampleReport2 : Report :=
  mkReport { sampleDraft with description := "rip current" } 2 "bbb"

/-- A pending report created at time 3 with two attachments. -/
def sampleReportMedia : Report :=
  mkReport { sampleDraft with media_files := ["a.jpg", "b.jpg"] } 3 "ccc"

/-- A gateway on which every upload and every insert succeeds. -/
def allOkGateway : Gateway :=
  { uploadOk := fun _ _ => true
    uploadUrl := fun _ f => "https://cdn.example/" ++ f
    insertOk := fun _ => true }

/-- A gateway whose record insert fails deterministically for
`sampleReport1` and succeeds for every other record. -/
def failFirstInsertGateway : Gateway :=
  { uploadOk := fun _ _ => true
    uploadUrl := fun _ f => "https://cdn.example/" ++ f
    insertOk := fun r => r.id ≠ sampleReport1.id }

/-- A gateway on which uploading the file `b.jpg` fails and everything else
succeeds. -/
def failSecondUploadGateway : Gateway :=
  { uploadOk := fun _ f => f ≠ "b.jpg"
    uploadUrl := fun _ f => "https://cdn.example/" ++ f
    insertOk := fun _ => true }

/-- The idle in-memory state: online, empty projection, no drain running. -/
def idleOnlineState : OfflineState :=
  { isOnline := true, pendingReports := [], syncInProgress := false }

/-- In-memory state holding the two sample pending reports. -/
def twoPendingState : OfflineState :=
  { isOnline := true
    pendingReports := [sampleReport1, sampleReport2]
    syncInProgress := false }

/-- Durable store holding the two sample pending reports. -/
def twoPendingStore : Store :=
  [(sampleReport1.id, sampleReport1), (sampleReport2.id, sampleReport2)]

/-- Durable store holding one pending and one already-synced record. -/
def mixedStore : Store :=
  [(sampleReport1.id, sampleReport1),
   (sampleReport2.id, { sampleReport2 with synced := true })]

/-! ## Store lemmas -/

lemma getItem_nil (key : String) : getItem ([] : Store) key = none := rfl

lemma getItem_cons (kr : String × Report) (s : Store) (key : String) :
    getItem (kr :: s) key = if kr.1 = key then some kr.2 else getItem s key := by
  by_cases h : kr.1 = key <;> simp [getItem, List.find?, h]

lemma getItem_eq_none_of_not_any (s : Store) (k : String)
    (h : s.any (fun kr => kr.1 = k) = false) : getItem s k = none := by
  induction s with
  | nil => rfl
  | cons kr s ih =>
      simp only [List.any_cons, Bool.or_eq_false_iff] at h
      rw [getItem_cons]
      have hk : ¬ kr.1 = k := by simpa using h.1
      simp [hk, ih h.2]

lemma getItem_map_self (s : Store) (k : String) (r : Report)
    (h : s.any (fun kr => kr.1 = k) = true) :
    getItem (s.map (fun kr => if kr.1 = k then (k, r) else kr)) k = some r := by
  induction s with
  | nil => simp at h
  | cons kr s ih =>
      by_cases hk : kr.1 = k
      · simp only [List.map_cons, hk, if_true]
        rw [getItem_cons]
        simp
      · simp only [List.any_cons, Bool.or_eq_true] at h
        have h' : s.any (fun kr => kr.1 = k) = true := by
          rcases h with h | h
          · exact absurd (by simpa using h) hk
          · exact h
        simp only [List.map_cons, hk, if_false]
        rw [getItem_cons]
        simp [hk, ih h']

lemma getItem_map_other (s : Store) (k k' : String) (r : Report)
    (h : k' ≠ k) :
    getItem (s.map (fun kr => if kr.1 = k then (k, r) else kr)) k' = getItem s k' := by
  induction s with
  | nil => rfl
  | cons kr s ih =>
      by_cases hk : kr.1 = k
      · simp only [List.map_cons, hk, if_true]
        rw [getItem_cons, getItem_cons]
        have h1 : ¬ ((k, r).1 = k') := fun hh => h hh.symm
        have h2 : ¬ kr.1 = k' := by rw [hk]; exact fun hh => h hh.symm
        simp only [h1, h2, if_false]
        exact ih
      · simp only [List.map_cons, hk, if_false]
        rw [getItem_cons, getItem_cons]
        by_cases hk' : kr.1 = k'
        · simp [hk']
        · simp only [hk', if_false]
          exact ih

lemma getItem_append_single_self (s : Store) (k : String) (r : Report)
    (h : getItem s k = none) : getItem (s ++ [(k, r)]) k = some r := by
  induction s with
  | nil => simp [getItem_cons]
  | cons kr s ih =>
      rw [getItem_cons] at h
      by_cases hk : kr.1 = k
      · simp [hk] at h
      · simp only [hk, if_false] at h
        simp only [List.cons_append]
        rw [getItem_cons]
        simp [hk, ih h]

lemma getItem_append_single_other (s : Store) (k k' : String) (r : Report)
    (h : k' ≠ k) : getItem (s ++ [(k, r)]) k' = getItem s k' := by
  induction s with
  | nil =>
      simp only [List.nil_append, getItem_nil]
      rw [getItem_cons]
      have : ¬ ((k, r).1 = k') := fun hh => h hh.symm
      simp [this, getItem_nil]
  | cons kr s ih =>
      simp only [List.cons_append]
      rw [getItem_cons, getItem_cons]
      by_cases hk' : kr.1 = k'
      · simp [hk']
      · simp only [hk', if_false]
        exact ih

lemma getItem_setItem_self (s : Store) (k : String) (r : Report) :
    getItem (setItem s k r) k = some r := by
  unfold setItem
  by_cases h : s.any (fun kr => kr.1 = k) = true
  · rw [if_pos h]
    exact getItem_map_self s k r h
  · rw [if_neg h]
    exact getItem_append_single_self s k r
      (getItem_eq_none_of_not_any s k (Bool.eq_false_iff.mpr h))

lemma getItem_setItem_other (s : Store) (k k' : String) (r : Report)
    (h : k' ≠ k) : getItem (setItem s k r) k' = getItem s k' := by
  unfold setItem
  by_cases ha : s.any (fun kr => kr.1 = k) = true
  · rw [if_pos ha]
    exact getItem_map_other s k k' r h
  · rw [if_neg ha]
    exact getItem_append_single_other s k k' r h

lemma getItem_removeItem (s : Store) (k key : String) :
    getItem (removeItem s k) key = if key = k then none else getItem s key := by
  induction s with
  | nil => by_cases h : key = k <;> simp [removeItem, getItem_nil, h]
  | cons kr s ih =>
      by_cases hk : kr.1 = k
      · have hstep : removeItem (kr :: s) k = removeItem s k := by
          simp [removeItem, List.filter_cons, hk]
        rw [hstep, ih, getItem_cons]
        by_cases hkey : key = k
        · simp [hkey]
        · have hne : ¬ kr.1 = key := by
            rw [hk]; exact fun hh => hkey hh.symm
          simp [hkey, hne]
      · have hstep : removeItem (kr :: s) k = kr :: removeItem s k := by
          simp [removeItem, List.filter_cons, hk]
        rw [hstep, getItem_cons, getItem_cons, ih]
        by_cases hkr : kr.1 = key
        · have hkey : ¬ key = k := by rw [← hkr]; exact hk
          simp [hkr, hkey]
        · simp [hkr]

/-! ## Sort lemmas -/

lemma insertByCreatedAt_perm (r : Report) (l : List Report) :
    List.Perm (insertByCreatedAt r l) (r :: l) := by
  induction l with
  | nil => exact List.Perm.refl _
  | cons x xs ih =>
      by_cases h : x.created_at ≤ r.created_at
      · simp only [insertByCreatedAt, if_pos h]
        exact List.Perm.refl _
      · simp only [insertByCreatedAt, if_neg h]
        exact List.Perm.trans (ih.cons x) (List.Perm.swap r x xs)

lemma sortNewestFirst_perm (l : List Report) :
    List.Perm (sortNewestFirst l) l := by
  induction l with
  | nil => exact List.Perm.refl _
  | cons r rs ih =>
      exact List.Perm.trans (insertByCreatedAt_perm r (sortNewestFirst rs)) (ih.cons r)

lemma pairwise_insertByCreatedAt (r : Report) (l : List Report)
    (h : l.Pairwise (fun a b => b.created_at ≤ a.created_at)) :
    (insertByCreatedAt r l).Pairwise (fun a b => b.created_at ≤ a.created_at) := by
  induction l with
  | nil => simp [insertByCreatedAt]
  | cons x xs ih =>
      rcases List.pairwise_cons.mp h with ⟨hx, hxs⟩
      by_cases hle : x.created_at ≤ r.created_at
      · simp only [insertByCreatedAt, if_pos hle]
        refine List.pairwise_cons.mpr ⟨?_, h⟩
        intro b hb
        rcases List.mem_cons.mp hb with rfl | hb'
        · exact hle
        · exact le_trans (hx b hb') hle
      · simp only [insertByCreatedAt, if_neg hle]
        refine List.pairwise_cons.mpr ⟨?_, ih hxs⟩
        intro b hb
        rcases List.mem_cons.mp ((insertByCreatedAt_perm r xs).mem_iff.mp hb) with
          rfl | hb'
        · exact le_of_not_le hle
        · exact hx b hb'

lemma sortNewestFirst_sorted (l : List Report) :
    (sortNewestFirst l).Pairwise (fun a b => b.created_at ≤ a.created_at) := by
  induction l with
  | nil => simp [sortNewestFirst]
  | cons r rs ih => exact pairwise_insertByCreatedAt r _ ih

/-! ## Drain-loop lemmas -/

lemma drainLoop_getItem_notMem (gw : Gateway) (rs : List Report) (store : Store)
    (key : String) (h : key ∉ rs.map Report.id) :
    getItem (drainLoop gw rs store).1 key = getItem store key := by
  induction rs generalizing store with
  | nil => rfl
  | cons r rs ih =>
      simp only [List.map_cons, List.mem_cons] at h
      push_neg at h
      obtain ⟨h1, h2⟩ := h
      cases hs : r.synced with
      | true => simp only [drainLoop, hs, if_true]; exact ih store h2
      | false =>
          simp only [drainLoop, hs, Bool.false_eq_true, if_false]
          rw [ih _ h2]
          by_cases ht : (attemptSync gw r).succeeded = true
          · rw [if_pos ht]
            exact getItem_setItem_other store r.id key _ h1
          · rw [if_neg ht]

lemma drainLoop_getItem (gw : Gateway) (rs : List Report) (store : Store)
    (key : String) (hnd : (rs.map Report.id).Nodup) :
    getItem (drainLoop gw rs store).1 key =
      match rs.find? (fun r => r.id = key) with
      | some r =>
          if r.synced = false ∧ (attemptSync gw r).succeeded = true then
            some { r with synced := true }
          else getItem store key
      | none => getItem store key := by
  induction rs generalizing store with
  | nil => rfl
  | cons r rs ih =>
      simp only [List.map_cons, List.nodup_cons] at hnd
      obtain ⟨hnotin, hnd'⟩ := hnd
      by_cases hid : r.id = key
      · subst hid
        rw [List.find?_cons_of_pos _ (by simp)]
        cases hs : r.synced with
        | true =>
            simp only [drainLoop, hs, if_true]
            rw [drainLoop_getItem_notMem gw rs store r.id hnotin]
            simp
        | false =>
            simp only [drainLoop, hs, Bool.false_eq_true, if_false]
            by_cases ht : (attemptSync gw r).succeeded = true
            · rw [if_pos ht]
              rw [drainLoop_getItem_notMem gw rs _ r.id hnotin]
              rw [getItem_setItem_self]
              simp [hs, ht]
            · rw [if_neg ht]
              rw [drainLoop_getItem_notMem gw rs store r.id hnotin]
              simp [ht]
      · rw [List.find?_cons_of_neg _ (by simp [hid])]
        cases hs : r.synced with
        | true =>
            simp only [drainLoop, hs, if_true]
            exact ih store hnd'
        | false =>
            simp only [drainLoop, hs, Bool.false_eq_true, if_false]
            by_cases ht : (attemptSync gw r).succeeded = true
            · rw [if_pos ht]
              rw [ih _ hnd']
              have hoth : getItem (setItem store r.id { r with synced := true }) key
                  = getItem store key :=
                getItem_setItem_other store r.id key _ (fun hh => hid hh.symm)
              cases hfind : rs.find? (fun r => r.id = key) <;> simp [hoth]
            · rw [if_neg ht]
              exact ih store hnd'

lemma drainLoop_getItem_found (gw : Gateway) (rs : List Report) (store : Store)
    (key : String) (r : Report) (hnd : (rs.map Report.id).Nodup)
    (hfind : rs.find? (fun x => x.id = key) = some r) :
    getItem (drainLoop gw rs store).1 key
      = if r.synced = false ∧ (attemptSync gw r).succeeded = true then
          some { r with synced := true }
        else getItem store key := by
  rw [drainLoop_getItem gw rs store key hnd, hfind]

lemma drainLoop_getItem_none (gw : Gateway) (rs : List Report) (store : Store)
    (key : String) (hnd : (rs.map Report.id).Nodup)
    (hfind : rs.find? (fun x => x.id = key) = none) :
    getItem (drainLoop gw rs store).1 key = getItem store key := by
  rw [drainLoop_getItem gw rs store key hnd, hfind]

lemma drainLoop_trace (gw : Gateway) (rs : List Report) (store : Store) :
    (drainLoop gw rs store).2
      = (rs.filter (fun r => !r.synced)).map (attemptSync gw) := by
  induction rs generalizing store with
  | nil => rfl
  | cons r rs ih =>
      cases hs : r.synced with
      | true => simp [drainLoop, hs, List.filter_cons, ih]
      | false => simp [drainLoop, hs, List.filter_cons, ih]

/-! ## Cleanup lemmas -/

lemma foldl_removeItem_eq_filter (keys : List String) (s : Store) :
    keys.foldl removeItem s = s.filter (fun kr => kr.1 ∉ keys) := by
  induction keys generalizing s with
  | nil => simp
  | cons k ks ih =>
      simp only [List.foldl_cons]
      rw [ih]
      unfold removeItem
      rw [List.filter_filter]
      refine List.filter_congr ?_
      intro kr _
      by_cases h1 : kr.1 = k <;> by_cases h2 : kr.1 ∈ ks <;>
        simp [h1, h2, List.mem_cons]

lemma getItem_eq_none_of_key_notMem (s : Store) (key : String)
    (h : key ∉ s.map Prod.fst) : getItem s key = none := by
  induction s with
  | nil => rfl
  | cons kr s ih =>
      simp only [List.map_cons, List.mem_cons] at h
      push_neg at h
      rw [getItem_cons, if_neg (fun hh => h.1 hh.symm)]
      exact ih h.2

lemma getItem_filter_not_synced (s : Store) (key : String)
    (hnd : (s.map Prod.fst).Nodup) :
    getItem (s.filter (fun kr => !kr.2.synced)) key =
      match getItem s key with
      | some r => if r.synced = true then none else some r
      | none => none := by
  induction s with
  | nil => rfl
  | cons kr s ih =>
      simp only [List.map_cons, List.nodup_cons] at hnd
      obtain ⟨hnotin, hnd'⟩ := hnd
      by_cases hk : kr.1 = key
      · subst hk
        rw [getItem_cons, if_pos rfl]
        cases hs : kr.2.synced with
        | true =>
            rw [List.filter_cons_of_neg (by simp [hs])]
            have hsub : List.Sublist ((s.filter (fun kr => !kr.2.synced)).map Prod.fst)
                (s.map Prod.fst) :=
              List.Sublist.map Prod.fst (List.filter_sublist s)
            have : kr.1 ∉ (s.filter (fun kr => !kr.2.synced)).map Prod.fst :=
              fun hmem => hnotin (hsub.mem hmem)
            rw [getItem_eq_none_of_key_notMem _ _ this]
            simp [hs]
        | false =>
            rw [List.filter_cons_of_pos (by simp [hs])]
            rw [getItem_cons, if_pos rfl]
            simp [hs]
      · cases hs : kr.2.synced with
        | true =>
            rw [List.filter_cons_of_neg (by simp [hs])]
            rw [getItem_cons, if_neg hk]
            exact ih hnd'
        | false =>
            rw [List.filter_cons_of_pos (by simp [hs])]
            rw [getItem_cons, getItem_cons, if_neg hk, if_neg hk]
            exact ih hnd'

/-- With unique keys, the set of keys collected by the cleanup scan marks
exactly the synced entries, so the removal loop is a filter on the sync
flag. -/
lemma clearBody_eq_filter (s : Store) (hnd : (s.map Prod.fst).Nodup) :
    ((s.filter (fun kr => kr.2.synced)).map (fun kr => kr.1)).foldl removeItem s
      = s.filter (fun kr => !kr.2.synced) := by
  rw [foldl_removeItem_eq_filter]
  refine List.filter_congr ?_
  intro kr hkr
  by_cases hs : kr.2.synced = true
  · have hmem : kr.1 ∈ (s.filter (fun kr => kr.2.synced)).map (fun kr => kr.1) :=
      List.mem_map.mpr ⟨kr, List.mem_filter.mpr ⟨hkr, by simp [hs]⟩, rfl⟩
    simp [hmem, hs]
  · have hmem : kr.1 ∉ (s.filter (fun kr => kr.2.synced)).map (fun kr => kr.1) := by
      intro hmem
      rcases List.mem_map.mp hmem with ⟨kr', hkr', hfst⟩
      rcases List.mem_filter.mp hkr' with ⟨hkr's, hsy⟩
      have : kr' = kr :=
        List.inj_on_of_nodup_map hnd hkr's hkr hfst
      rw [this] at hsy
      simp [hs] at hsy
    simp [hmem, hs]

/-! ## Key-lookup lemmas used across the claims -/

lemma mem_of_getItem_some (s : Store) (key : String) (r0 : Report)
    (h : getItem s key = some r0) : (key, r0) ∈ s := by
  unfold getItem at h
  cases hf : s.find? (fun kr => kr.1 = key) with
  | none => rw [hf] at h; simp at h
  | some kr =>
      rw [hf] at h
      simp only [Option.map_some'] at h
      have hmem := List.mem_of_find?_eq_some hf
      have hkey : kr.1 = key := by
        have := List.find?_some hf
        simpa using this
      have hkr : kr = (key, r0) := by
        cases kr with
        | mk a b => simp_all
      rw [← hkr]
      exact hmem

lemma getItem_of_mem_nodup (s : Store) (key : String) (r0 : Report)
    (hnd : (s.map Prod.fst).Nodup) (hmem : (key, r0) ∈ s) :
    getItem s key = some r0 := by
  induction s with
  | nil => simp at hmem
  | cons kr s ih =>
      simp only [List.map_cons, List.nodup_cons] at hnd
      obtain ⟨hnotin, hnd'⟩ := hnd
      rcases List.mem_cons.mp hmem with rfl | hmem'
      · rw [getItem_cons, if_pos rfl]
      · have hne : ¬ kr.1 = key := by
          intro hh
          exact hnotin (hh ▸ List.mem_map_of_mem Prod.fst hmem')
        rw [getItem_cons, if_neg hne]
        exact ih hnd' hmem'

lemma getItem_filter_some (s : Store) (p : String × Report → Bool)
    (key : String) (r0 : Report) (hnd : (s.map Prod.fst).Nodup)
    (h : getItem (s.filter p) key = some r0) : getItem s key = some r0 :=
  getItem_of_mem_nodup s key r0 hnd
    (List.mem_of_mem_filter (mem_of_getItem_some _ key r0 h))

lemma find?_id_of_mem (rs : List Report) (r : Report)
    (hnd : (rs.map Report.id).Nodup) (hmem : r ∈ rs) :
    rs.find? (fun x => x.id = r.id) = some r := by
  induction rs with
  | nil => simp at hmem
  | cons x xs ih =>
      simp only [List.map_cons, List.nodup_cons] at hnd
      obtain ⟨hnotin, hnd'⟩ := hnd
      by_cases hx : x.id = r.id
      · have hxr : x = r := by
          rcases List.mem_cons.mp hmem with rfl | hmem'
          · rfl
          · have : x.id ∈ xs.map Report.id := by
              rw [hx]
              exact List.mem_map_of_mem Report.id hmem'
            exact absurd this hnotin
        rw [List.find?_cons_of_pos _ (by simp [hx]), hxr]
      · rw [List.find?_cons_of_neg _ (by simp [hx])]
        apply ih hnd'
        rcases List.mem_cons.mp hmem with rfl | hmem'
        · exact absurd rfl hx
        · exact hmem'

/-- After the synced entries are filtered out, a second scan for synced
entries finds nothing. -/
lemma filter_synced_filter_not_synced (s : Store) :
    (s.filter (fun kr => !kr.2.synced)).filter (fun kr => kr.2.synced) = [] := by
  rw [List.filter_filter]
  have : ∀ kr ∈ s, (kr.2.synced && !kr.2.synced) = (fun _ => false) kr := by
    intro kr _
    cases kr.2.synced <;> rfl
  rw [List.filter_congr this]
  exact List.filter_false s

/-! ## Claim theorems -/

/-- C1: partial-failure isolation of drain.  For a batch of pending records
with distinct ids, consistent with the durable store, where the gateway
(upload or insert) fails deterministically exactly for the record with id
`rid` and succeeds for all others, one `syncPendingReports` pass leaves
every other record marked `synced = true` in the durable store, leaves the
failing record stored unchanged with `synced = false`, and completes
normally (the model is a total function — every gateway failure is caught
inside the loop — and the in-progress flag is cleared). -/
theorem drain_isolates_record_failures
    (gw : Gateway) (st : OfflineState) (store : Store) (rid : String)
    (hon : st.isOnline = true) (hsp : st.syncInProgress = false)
    (hne : st.pendingReports ≠ [])
    (hnd : (st.pendingReports.map Report.id).Nodup)
    (hpend : ∀ r ∈ st.pendingReports, r.synced = false)
    (hcons : ∀ r ∈ st.pendingReports, getItem store r.id = some r)
    (hfail : ∀ r ∈ st.pendingReports, r.id = rid →
        (attemptSync gw r).succeeded = false)
    (hsucc : ∀ r ∈ st.pendingReports, r.id ≠ rid →
        (attemptSync gw r).succeeded = true) :
    (∀ r ∈ st.pendingReports, r.id ≠ rid →
        getItem (syncPendingReports gw false st store).2.1 r.id
          = some { r with synced := true }) ∧
    (∀ r ∈ st.pendingReports, r.id = rid →
        getItem (syncPendingReports gw false st store).2.1 r.id = some r) ∧
    (syncPendingReports gw false st store).1.syncInProgress = false := by
  have hcond : ¬ (st.isOnline = false ∨ st.syncInProgress = true ∨
      st.pendingReports.isEmpty = true) := by
    simp [hon, hsp, hne]
  have hstore : (syncPendingReports gw false st store).2.1
      = (drainLoop gw st.pendingReports store).1 := by
    unfold syncPendingReports
    rw [if_neg hcond]
  have hflag : (syncPendingReports gw false st store).1.syncInProgress = false := by
    unfold syncPendingReports
    rw [if_neg hcond]
  refine ⟨?_, ?_, hflag⟩
  · intro r hr hne'
    rw [hstore, drainLoop_getItem gw _ store r.id hnd, find?_id_of_mem _ r hnd hr]
    simp [hpend r hr, hsucc r hr hne']
  · intro r hr heq
    rw [hstore, drainLoop_getItem gw _ store r.id hnd, find?_id_of_mem _ r hnd hr]
    have hsf := hfail r hr heq
    simp [hsf, hcons r hr]

/-- Witness for C1 at the two sample reports, with the gateway failing the
insert for the first report only: the second becomes synced in the store,
the first stays stored as it was (still pending), and the flag is clear. -/
theorem drain_isolates_record_failures_witness :
    getItem (syncPendingReports failFirstInsertGateway false twoPendingState
        twoPendingStore).2.1 sampleReport2.id
      = some { sampleReport2 with synced := true } ∧
    getItem (syncPendingReports failFirstInsertGateway false twoPendingState
        twoPendingStore).2.1 sampleReport1.id = some sampleReport1 ∧
    (syncPendingReports failFirstInsertGateway false twoPendingState
        twoPendingStore).1.syncInProgress = false := by
  have h := drain_isolates_record_failures failFirstInsertGateway twoPendingState
    twoPendingStore sampleReport1.id rfl rfl (by decide) (by decide) (by decide)
    (by decide) (by decide) (by decide)
  exact ⟨h.1 sampleReport2 (by decide) (by decide),
    h.2.1 sampleReport1 (by decide) rfl, h.2.2⟩

/-- C2: record immutability and terminal synced state.  A drain pass over a
projection with distinct ids consistent with the store rewrites a stored
record only by flipping `synced` from `false` to `true`, never touches any
other field, and never reverts `synced = true`; its gateway attempts are
exactly the non-synced records of the projection (a record already marked
synced gets no gateway call); enqueue touches no key other than the fresh
record's id; cleanup only removes entries — any surviving entry is exactly
the record that was stored.  `loadPendingReports` writes nothing to the
store at all (its model does not return a store), so it modifies no
record. -/
theorem record_immutability
    (gw : Gateway) (rs : List Report) (store : Store)
    (st st2 : OfflineState) (sb : StoreBehavior)
    (draft : ReportDraft) (now : Nat) (nonce : String)
    (hnd : (rs.map Report.id).Nodup)
    (hcons : ∀ r ∈ rs, getItem store r.id = some r)
    (hnds : (sb.entries.map Prod.fst).Nodup) :
    (∀ key r0, getItem store key = some r0 →
        getItem (drainLoop gw rs store).1 key = some r0 ∨
        (r0.synced = false ∧
          getItem (drainLoop gw rs store).1 key = some { r0 with synced := true })) ∧
    (∀ key r0, getItem store key = some r0 → r0.synced = true →
        getItem (drainLoop gw rs store).1 key = some r0) ∧
    ((drainLoop gw rs store).2
        = (rs.filter (fun r => !r.synced)).map (attemptSync gw)) ∧
    (∀ key, key ≠ (mkReport draft now nonce).id →
        getItem (addPendingReport draft now nonce st store).2.1 key
          = getItem store key) ∧
    (∀ key r0, getItem (clearSyncedReports st2 sb).2 key = some r0 →
        getItem sb.entries key = some r0) := by
  have parta : ∀ key r0, getItem store key = some r0 →
      getItem (drainLoop gw rs store).1 key = some r0 ∨
      (r0.synced = false ∧
        getItem (drainLoop gw rs store).1 key = some { r0 with synced := true }) := by
    intro key r0 h0
    cases hfind : rs.find? (fun r => r.id = key) with
    | none =>
        rw [drainLoop_getItem_none gw rs store key hnd hfind]
        exact Or.inl h0
    | some r =>
        have hrmem := List.mem_of_find?_eq_some hfind
        have hrid : r.id = key := by
          have := List.find?_some hfind
          simpa using this
        have hr0 : r = r0 := by
          have hc := hcons r hrmem
          rw [hrid, h0] at hc
          exact (Option.some_inj.mp hc).symm
        subst hr0
        rw [drainLoop_getItem_found gw rs store key r hnd hfind]
        by_cases hc : r.synced = false ∧ (attemptSync gw r).succeeded = true
        · exact Or.inr ⟨hc.1, by rw [if_pos hc]⟩
        · rw [if_neg hc]
          exact Or.inl h0
  refine ⟨parta, ?_, drainLoop_trace gw rs store, ?_, ?_⟩
  · intro key r0 h0 hs
    rcases parta key r0 h0 with h | ⟨hfalse, _⟩
    · exact h
    · rw [hs] at hfalse
      exact Bool.noConfusion hfalse
  · intro key hk
    exact getItem_setItem_other store _ key _ hk
  · intro key r0 h0
    cases hf : sb.iterateFails with
    | true =>
        have hcl : (clearSyncedReports st2 sb).2 = sb.entries := by
          simp [clearSyncedReports, clearSyncedReportsE, iterateSyncedKeys, hf]
        rw [hcl] at h0
        exact h0
    | false =>
        have hcl : (clearSyncedReports st2 sb).2
            = sb.entries.filter (fun kr => !kr.2.synced) := by
          simp only [clearSyncedReports, clearSyncedReportsE, iterateSyncedKeys, hf,
            Bool.false_eq_true, if_false]
          exact clearBody_eq_filter sb.entries hnds
        rw [hcl] at h0
        exact getItem_filter_some _ _ key r0 hnds h0

/-- Witness for C2: draining `[sampleReport1]` over the mixed store leaves
the already-synced second record untouched, the gateway trace covers only
the pending record, and enqueue leaves the other key alone. -/
theorem record_immutability_witness :
    getItem (drainLoop allOkGateway [sampleReport1] mixedStore).1 sampleReport2.id
      = some { sampleReport2 with synced := true } ∧
    (drainLoop allOkGateway [sampleReport1] mixedStore).2
      = ([sampleReport1].filter (fun r => !r.synced)).map (attemptSync allOkGateway) ∧
    getItem (addPendingReport sampleDraft 9 "zzz" idleOnlineState mixedStore).2.1
        sampleReport1.id = getItem mixedStore sampleReport1.id := by
  have h := record_immutability allOkGateway [sampleReport1] mixedStore
    idleOnlineState idleOnlineState ⟨mixedStore, false⟩ sampleDraft 9 "zzz"
    (by decide) (by decide) (by decide)
  exact ⟨h.2.1 sampleReport2.id { sampleReport2 with synced := true } (by decide) rfl,
    h.2.2.1, h.2.2.2.1 sampleReport1.id (by decide)⟩

/-- C3: load correctness and durability.  Whenever the scan succeeds (any
durable-store content, e.g. after enqueues and a simulated restart),
`loadPendingReports` publishes as the projection exactly the stored records
whose sync flag is false — the stored values themselves, so every payload
field is identical to what was written — sorted newest-first by
`created_at`; records whose flag is true are excluded; and a repeated call
against the unchanged store yields the same state (idempotent). -/
theorem load_projection_correct (st : OfflineState) (sb : StoreBehavior)
    (hf : sb.iterateFails = false) :
    List.Perm (loadPendingReports st sb).pendingReports
        ((sb.entries.map (fun kr => kr.2)).filter (fun r => !r.synced)) ∧
    (loadPendingReports st sb).pendingReports.Pairwise
        (fun a b => b.created_at ≤ a.created_at) ∧
    (∀ r ∈ (loadPendingReports st sb).pendingReports, r.synced = false) ∧
    loadPendingReports (loadPendingReports st sb) sb = loadPendingReports st sb := by
  have hload : loadPendingReports st sb
      = { st with pendingReports :=
            sortNewestFirst ((sb.entries.map (fun kr => kr.2)).filter
              (fun r => !r.synced)) } := by
    simp [loadPendingReports, loadPendingReportsE, iteratePending, hf]
  refine ⟨?_, ?_, ?_, ?_⟩
  · rw [hload]
    exact sortNewestFirst_perm _
  · rw [hload]
    exact sortNewestFirst_sorted _
  · intro r hr
    rw [hload] at hr
    have hmem := (sortNewestFirst_perm _).mem_iff.mp hr
    have := (List.mem_filter.mp hmem).2
    simpa using this
  · rw [hload]
    simp [loadPendingReports, loadPendingReportsE, iteratePending, hf]

/-- Witness for C3 at the mixed store: only the pending record is loaded
and a second load is a no-op. -/
theorem load_projection_correct_witness :
    (∀ r ∈ (loadPendingReports idleOnlineState ⟨mixedStore, false⟩).pendingReports,
        r.synced = false) ∧
    loadPendingReports (loadPendingReports idleOnlineState ⟨mixedStore, false⟩)
        ⟨mixedStore, false⟩
      = loadPendingReports idleOnlineState ⟨mixedStore, false⟩ := by
  have h := load_projection_correct idleOnlineState ⟨mixedStore, false⟩ rfl
  exact ⟨h.2.2.1, h.2.2.2⟩

/-- C4: drain guard and preconditions.  When offline, when a drain is
already in progress (so at most one drain body is ever active — a second
request is a no-op), or when the projection is empty, `syncPendingReports`
returns the state and store unchanged with an empty gateway trace; and
whenever a drain starts with the flag clear it completes with
`syncInProgress = false`, for every reload behaviour including a throwing
reload (`rf = true`). -/
theorem drain_guard (gw : Gateway) (rf : Bool) (st : OfflineState) (store : Store) :
    ((st.isOnline = false ∨ st.syncInProgress = true ∨ st.pendingReports = []) →
        syncPendingReports gw rf st store = (st, store, [])) ∧
    (st.syncInProgress = false →
        (syncPendingReports gw rf st store).1.syncInProgress = false) := by
  constructor
  · intro h
    have hcond : st.isOnline = false ∨ st.syncInProgress = true ∨
        st.pendingReports.isEmpty = true := by
      rcases h with h | h | h
      · exact Or.inl h
      · exact Or.inr (Or.inl h)
      · exact Or.inr (Or.inr (by simp [h]))
    unfold syncPendingReports
    rw [if_pos hcond]
  · intro hsp
    by_cases hg : st.isOnline = false ∨ st.syncInProgress = true ∨
        st.pendingReports.isEmpty = true
    · unfold syncPendingReports
      rw [if_pos hg]
      exact hsp
    · unfold syncPendingReports
      rw [if_neg hg]

/-- Witness for C4: an offline state is left fully untouched, with the
in-progress flag still clear. -/
theorem drain_guard_witness :
    syncPendingReports allOkGateway false
        { isOnline := false, pendingReports := [sampleReport1], syncInProgress := false }
        twoPendingStore
      = ({ isOnline := false, pendingReports := [sampleReport1],
           syncInProgress := false }, twoPendingStore, []) ∧
    (syncPendingReports allOkGateway false
        { isOnline := false, pendingReports := [sampleReport1], syncInProgress := false }
        twoPendingStore).1.syncInProgress = false := by
  have h := drain_guard allOkGateway false
    { isOnline := false, pendingReports := [sampleReport1], syncInProgress := false }
    twoPendingStore
  exact ⟨h.1 (Or.inl rfl), h.2 rfl⟩

/-- C5 counterexample: enqueueing an older report (created at 1) and then a
newer one (created at 2) leaves the projection `[older, newer]` — the new
record is appended at the end (line 64–66 of the source), so the projection
exposed to the UI is not sorted newest-first by `created_at`, refuting the
claim's ordering conjunct. -/
theorem enqueue_sorted_counterexample :
    ¬ ((addPendingReport { sampleDraft with description := "rip current" } 2 "bbb"
          (addPendingReport sampleDraft 1 "aaa" idleOnlineState []).1
          (addPendingReport sampleDraft 1 "aaa" idleOnlineState []).2.1).1.pendingReports.Pairwise
        (fun a b => b.created_at ≤ a.created_at)) := by
  decide

/-- C5 (amended): after `addPendingReport` the durable store contains the
new record — fresh id `offline_<now>_<nonce>`, `created_at = now`, sync
flag false — and the in-memory projection equals the prior projection with
the new record appended at the end; newest-first order is restored only by
the next `loadPendingReports`; a drain attempt is scheduled exactly when
already online. -/
theorem enqueue_postcondition (draft : ReportDraft) (now : Nat) (nonce : String)
    (st : OfflineState) (store : Store) :
    (addPendingReport draft now nonce st store).1.pendingReports
      = st.pendingReports ++ [mkReport draft now nonce] ∧
    getItem (addPendingReport draft now nonce st store).2.1
        (mkReport draft now nonce).id = some (mkReport draft now nonce) ∧
    (mkReport draft now nonce).synced = false ∧
    (mkReport draft now nonce).created_at = now ∧
    (mkReport draft now nonce).id = "offline_" ++ toString now ++ "_" ++ nonce ∧
    (addPendingReport draft now nonce st store).1.isOnline = st.isOnline ∧
    (addPendingReport draft now nonce st store).2.2 = st.isOnline := by
  exact ⟨rfl, getItem_setItem_self store _ _, rfl, rfl, rfl, rfl, rfl⟩

/-- C6: upload-before-insert ordering within a record's drain attempt.  The
record insert is attempted exactly when every media upload succeeded; if
any upload fails, the insert is never attempted, the attempt does not
succeed, and a drain pass over the record leaves its durable entry
unchanged (sync flag still false). -/
theorem upload_before_insert (gw : Gateway) (r : Report) (store : Store) :
    ((attemptSync gw r).insertAttempted = true ↔
        ∃ urls, uploadMedia gw r r.media_files = Except.ok urls) ∧
    (∀ e, uploadMedia gw r r.media_files = Except.error e →
        (attemptSync gw r).insertAttempted = false ∧
        (attemptSync gw r).succeeded = false ∧
        getItem (drainLoop gw [r] store).1 r.id = getItem store r.id) := by
  constructor
  · constructor
    · intro h
      cases hu : uploadMedia gw r r.media_files with
      | ok urls => exact ⟨urls, rfl⟩
      | error e =>
          unfold attemptSync at h
          rw [hu] at h
          exact Bool.noConfusion h
    · rintro ⟨urls, hu⟩
      unfold attemptSync
      rw [hu]
  · intro e hu
    have h1 : attemptSync gw r
        = { reportId := r.id, insertAttempted := false, succeeded := false } := by
      unfold attemptSync
      rw [hu]
    refine ⟨by rw [h1], by rw [h1], ?_⟩
    cases hs : r.synced with
    | true => simp [drainLoop, hs]
    | false => simp [drainLoop, hs, h1]

/-- Witness for C6 (Scenario C of the spec): a report with two attachments
on a gateway that rejects the second upload — the insert is never reached
and the stored record is untouched. -/
theorem upload_before_insert_witness :
    (attemptSync failSecondUploadGateway sampleReportMedia).insertAttempted = false ∧
    (attemptSync failSecondUploadGateway sampleReportMedia).succeeded = false ∧
    getItem (drainLoop failSecondUploadGateway [sampleReportMedia] mixedStore).1
        sampleReportMedia.id
      = getItem mixedStore sampleReportMedia.id := by
  exact (upload_before_insert failSecondUploadGateway sampleReportMedia mixedStore).2
    "b.jpg" rfl

/-- C7: cleanup correctness and idempotence.  With unique keys and a
healthy scan, `clearSyncedReports` removes from the store exactly the
records whose sync flag is true — every pending record survives unchanged
regardless of age, absent keys stay absent — an immediately repeated call
leaves the store identical (no-op), and the resulting state is the
projection reloaded from the cleaned store. -/
theorem clear_synced_correct (st : OfflineState) (sb : StoreBehavior)
    (hf : sb.iterateFails = false)
    (hnd : (sb.entries.map Prod.fst).Nodup) :
    (∀ key r, getItem sb.entries key = some r →
        getItem (clearSyncedReports st sb).2 key
          = if r.synced = true then none else some r) ∧
    (∀ key, getItem sb.entries key = none →
        getItem (clearSyncedReports st sb).2 key = none) ∧
    ((clearSyncedReports (clearSyncedReports st sb).1
        { entries := (clearSyncedReports st sb).2, iterateFails := false }).2
      = (clearSyncedReports st sb).2) ∧
    ((clearSyncedReports st sb).1
      = loadPendingReports st
          { entries := (clearSyncedReports st sb).2, iterateFails := false }) := by
  have hst : (clearSyncedReports st sb).2
      = sb.entries.filter (fun kr => !kr.2.synced) := by
    simp only [clearSyncedReports, clearSyncedReportsE, iterateSyncedKeys, hf,
      Bool.false_eq_true, if_false]
    exact clearBody_eq_filter sb.entries hnd
  refine ⟨?_, ?_, ?_, ?_⟩
  · intro key r h0
    rw [hst, getItem_filter_not_synced sb.entries key hnd, h0]
  · intro key h0
    rw [hst, getItem_filter_not_synced sb.entries key hnd, h0]
  · rw [hst]
    have hkeys : iterateSyncedKeys
        { entries := sb.entries.filter (fun kr => !kr.2.synced),
          iterateFails := false } = Except.ok [] := by
      simp [iterateSyncedKeys, filter_synced_filter_not_synced]
    simp [clearSyncedReports, clearSyncedReportsE, hkeys]
  · simp [clearSyncedReports, clearSyncedReportsE, iterateSyncedKeys, hf, hst]

/-- Witness for C7 at the mixed store: the pending record survives, the
synced record's key is gone, and a second cleanup leaves the store as is. -/
theorem clear_synced_correct_witness :
    getItem (clearSyncedReports idleOnlineState ⟨mixedStore, false⟩).2
        sampleReport1.id = some sampleReport1 ∧
    getItem (clearSyncedReports idleOnlineState ⟨mixedStore, false⟩).2
        sampleReport2.id = none ∧
    (clearSyncedReports (clearSyncedReports idleOnlineState ⟨mixedStore, false⟩).1
        { entries := (clearSyncedReports idleOnlineState ⟨mixedStore, false⟩).2,
          iterateFails := false }).2
      = (clearSyncedReports idleOnlineState ⟨mixedStore, false⟩).2 := by
  have h := clear_synced_correct idleOnlineState ⟨mixedStore, false⟩ rfl (by decide)
  refine ⟨?_, ?_, h.2.2.1⟩
  · have := h.1 sampleReport1.id sampleReport1 (by decide)
    simpa using this
  · have := h.1 sampleReport2.id { sampleReport2 with synced := true } (by decide)
    simpa using this

/-- C8 counterexample: at a concrete store whose iteration throws, both
`loadPendingReports` and `clearSyncedReports` resolve normally
(`Except.ok`, state and store untouched) — their `catch` blocks (lines
86–88 and 179–181) log and swallow the error — refuting the claim that a
storage-layer failure propagates to the caller. -/
theorem load_clear_propagation_counterexample :
    loadPendingReportsE idleOnlineState ⟨mixedStore, true⟩
      = Except.ok idleOnlineState ∧
    clearSyncedReportsE idleOnlineState ⟨mixedStore, true⟩
      = Except.ok (idleOnlineState, mixedStore) := by
  exact ⟨rfl, rfl⟩

/-- C8 (amended): a storage-layer failure raised during
`loadPendingReports` or `clearSyncedReports` is caught inside the
operation and only logged: the operation always resolves normally for the
caller, and on a failing scan returns with the state (and, for clear, the
store) exactly as they were. -/
theorem load_clear_errors_swallowed (st : OfflineState) (sb : StoreBehavior) :
    (∃ st', loadPendingReportsE st sb = Except.ok st') ∧
    (∃ res, clearSyncedReportsE st sb = Except.ok res) ∧
    (sb.iterateFails = true →
        loadPendingReportsE st sb = Except.ok st ∧
        clearSyncedReportsE st sb = Except.ok (st, sb.entries)) := by
  refine ⟨?_, ?_, ?_⟩ <;> cases hf : sb.iterateFails <;>
    simp [loadPendingReportsE, clearSyncedReportsE, iteratePending,
      iterateSyncedKeys, hf]

/-- Witness for C8's amended theorem at a concrete failing store. -/
theorem load_clear_errors_swallowed_witness :
    loadPendingReportsE twoPendingState ⟨twoPendingStore, true⟩
      = Except.ok twoPendingState ∧
    clearSyncedReportsE twoPendingState ⟨twoPendingStore, true⟩
      = Except.ok (twoPendingState, twoPendingStore) := by
  exact (load_clear_errors_swallowed twoPendingState ⟨twoPendingStore, true⟩).2.2 rfl

/-- C9 counterexample: with `isOnline` already true, `setOnlineStatus true`
still schedules a drain (lines 46–49 run on every call reporting true, not
only on the unreachable→reachable transition), refuting the claim that a
drain is scheduled only on the edge and "not on every report of an
already-reachable state". -/
theorem drain_trigger_counterexample :
    ¬ (idleOnlineState.isOnline = true →
        (setOnlineStatus true idleOnlineState).2 = false) := by
  decide

/-- C9 (amended): a drain attempt is scheduled on every `setOnlineStatus`
call reporting reachable — level-triggered on the reported value,
regardless of the previous state — and immediately after a successful
enqueue exactly when `isOnline` was already true; `setOnlineStatus false`
records the status and never schedules a drain. -/
theorem drain_triggers (status : Bool) (st : OfflineState)
    (draft : ReportDraft) (now : Nat) (nonce : String) (store : Store) :
    (setOnlineStatus status st).2 = status ∧
    (setOnlineStatus status st).1.isOnline = status ∧
    (setOnlineStatus false st).2 = false ∧
    (addPendingReport draft now nonce st store).2.2 = st.isOnline := by
  exact ⟨rfl, rfl, rfl, rfl⟩

/-- C10: atomicity of load on storage error.  If the store iteration inside
`loadPendingReports` throws, the operation resolves normally with the state
— in particular the in-memory projection — exactly as it was before the
call: the `set` of line 83 is never reached and the `catch` of lines 86–88
swallows the error. -/
theorem load_error_atomic (st : OfflineState) (sb : StoreBehavior)
    (hf : sb.iterateFails = true) :
    loadPendingReportsE st sb = Except.ok st := by
  simp [loadPendingReportsE, iteratePending, hf]

/-- Witness for C10 at a concrete failing store and non-trivial state. -/
theorem load_error_atomic_witness :
    loadPendingReportsE twoPendingState ⟨mixedStore, true⟩
      = Except.ok twoPendingState :=
  load_error_atomic twoPendingState ⟨mixedStore, true⟩ rfl

end ResqTech
